import Mathlib

set_option maxRecDepth 10000

/-!
Verification of the browser-side widgets of the Shopify storefront theme
(predictive search, quote system, product quiz).  Each JavaScript class is
shallowly embedded: pure computations become Lean functions, stateful widget
behaviour becomes an explicit state record together with a step function over
an event type, and the asynchronous fetch life-cycle is modelled by explicit
request identifiers with issue / complete / fail / abort bookkeeping.
JavaScript numbers that are used as integers are modelled by Nat / Int, and
JSON payloads by a small JSON value type.
-/

/-! ## Product quiz (assets/quote-system.js, class ProductQuiz)

The scorer in ProductQuiz.getRecommendations reads three metafields
(a per-goal numeric score looked up at key quiz_score_<goal>,
quiz_experience_level and quiz_space_required), the product tags and the
availability flag.  Admin-configured quiz scores are non-negative numbers,
modelled as Nat.  Display-only product fields (title, url, image, price)
play no role in scoring or selection and are represented by the handle.
-/

namespace Quiz

structure Metafields where
  quizScore : String → Option Nat
  experienceLevel : Option String
  spaceRequired : Option String

structure Product where
  handle : String
  tags : List String
  available : Bool
  metafields : Metafields

/-- Quiz answers: goal and space are single-choice strings, experience is the
numeric slider value, focus is the multi-select list.  A field that was never
answered is `none` (JavaScript `undefined`). -/
structure Answers where
  goal : Option String
  experience : Option Int
  space : Option String
  focus : Option (List String)

/-- Goal rule of the scorer: `score += goalScore * 3` when the metafield at
key quiz_score_<goal> is truthy (present and non-zero), plus a flat bonus of
10 when the goal appears among the product tags.  The JavaScript truthiness
guard on answers.goal also rejects the empty string. -/
def goalPart (p : Product) (a : Answers) : Nat :=
  match a.goal with
  | none => 0
  | some g =>
    if g = "" then 0
    else
      (match p.metafields.quizScore g with
       | some n => if n = 0 then 0 else n * 3
       | none => 0)
      + (if g ∈ p.tags then 10 else 0)

/-- Experience rule: an if / else-if chain over quiz_experience_level
(bands beginner / intermediate / advanced, with a wildcard value all), guarded
by the truthiness of the numeric answer. -/
def expPart (p : Product) (a : Answers) : Nat :=
  match a.experience with
  | none => 0
  | some e =>
    if e = 0 then 0
    else
      let pe := p.metafields.experienceLevel
      if pe = some "all" then 5
      else if pe = some "beginner" ∧ e ≤ 4 then 8
      else if pe = some "intermediate" ∧ 4 ≤ e ∧ e ≤ 7 then 8
      else if pe = some "advanced" ∧ 7 ≤ e then 8
      else 0

/-- Space rule: exact match of quiz_space_required gives 6, otherwise a
product requiring small space gets 3 (small works everywhere). -/
def spacePart (p : Product) (a : Answers) : Nat :=
  match a.space with
  | none => 0
  | some sp =>
    if sp = "" then 0
    else
      let ps := p.metafields.spaceRequired
      if ps = some sp then 6
      else if ps = some "small" then 3
      else 0

/-- Focus rule: 4 points for every selected focus area that appears in the
product tags (a forEach accumulation in the source). -/
def focusPart (p : Product) (a : Answers) : Nat :=
  match a.focus with
  | none => 0
  | some fs => fs.foldl (fun acc f => acc + (if f ∈ p.tags then 4 else 0)) 0

/-- Availability rule: a flat bonus of 2 for available products. -/
def availPart (p : Product) : Nat :=
  if p.available then 2 else 0

/-- The quiz score of a product for a set of answers: the additive
combination of the five rules, exactly as accumulated into `score` in
ProductQuiz.getRecommendations. -/
def score (p : Product) (a : Answers) : Nat :=
  goalPart p a + expPart p a + spacePart p a + focusPart p a + availPart p

structure ScoredProduct where
  product : Product
  score : Nat

/-- The JavaScript sort comparator `(a, b) => b.score - a.score`: a may come
before b exactly when the comparator value is non-positive, that is when
b.score is at most a.score. -/
def scoreDesc (a b : ScoredProduct) : Prop :=
  b.score ≤ a.score

instance : DecidableRel scoreDesc :=
  fun a b => inferInstanceAs (Decidable (b.score ≤ a.score))

instance : IsTotal ScoredProduct scoreDesc :=
  ⟨fun a b => Nat.le_total b.score a.score⟩

instance : IsTrans ScoredProduct scoreDesc :=
  ⟨fun _ _ _ h1 h2 => Nat.le_trans h2 h1⟩

/-- The selection stage of ProductQuiz.getRecommendations:
`scored.filter(p => p.score > 0).sort((a, b) => b.score - a.score).slice(0, resultsCount)`.
ECMAScript Array.prototype.sort is specified as a stable comparison sort,
and for a consistent comparator the stable result is unique, so any stable
sort computes the list the engine produces. -/
def selectTopK (scored : List ScoredProduct) (resultsCount : Nat) : List ScoredProduct :=
  ((scored.filter fun sp => decide (0 < sp.score)).insertionSort scoreDesc).take resultsCount

/-- ProductQuiz.getRecommendations: score every product, then filter, sort
descending and truncate to the configured results count. -/
def getRecommendations (products : List Product) (answers : Answers)
    (resultsCount : Nat) : List ScoredProduct :=
  selectTopK (products.map fun p => ⟨p, score p answers⟩) resultsCount

/-- One rendered recommendation card (ProductQuiz.renderResults): the product
together with its displayed match percentage. -/
structure ResultCard where
  handle : String
  matchPercent : Int
deriving DecidableEq

/-- Math.max over the scores of the rendered products.  For the non-empty
lists renderResults works on, the fold from 0 agrees with Math.max because
the scores are non-negative. -/
def maxScore (ps : List ScoredProduct) : Nat :=
  ps.foldl (fun m p => max m p.score) 0

/-- The displayed match percentage, Math.round((score / maxScore) * 100).
For non-negative arguments Math.round(x) is the floor of x + 1/2, which is
exactly Mathlib round on the rationals. -/
def matchPercent (s m : Nat) : Int :=
  round ((s : ℚ) / (m : ℚ) * 100)

inductive QuizRender where
  | noResults
  | cards (cs : List ResultCard)
deriving DecidableEq

/-- ProductQuiz.renderResults: an empty recommendation list renders the
no-results fragment, otherwise one card per product carrying its match
percentage relative to the maximum displayed score. -/
def renderResults (ps : List ScoredProduct) : QuizRender :=
  if ps.isEmpty then .noResults
  else .cards (ps.map fun p => ⟨p.product.handle, matchPercent p.score (maxScore ps)⟩)

/-! Field-update helpers used to state monotonicity of the scorer in each of
its rule components. -/

/-- Product p with the per-goal quiz score metafield at key g set to n. -/
def setQuizScore (p : Product) (g : String) (n : Nat) : Product :=
  { p with metafields :=
      { p.metafields with
        quizScore := fun k => if k = g then some n else p.metafields.quizScore k } }

/-- Product p with one extra tag appended. -/
def addTag (p : Product) (t : String) : Product :=
  { p with tags := p.tags ++ [t] }

/-- Product p with quiz_experience_level set. -/
def setExperienceLevel (p : Product) (lv : String) : Product :=
  { p with metafields := { p.metafields with experienceLevel := some lv } }

/-- Product p with quiz_space_required set. -/
def setSpaceRequired (p : Product) (sp : String) : Product :=
  { p with metafields := { p.metafields with spaceRequired := some sp } }

/-- Product p marked available. -/
def setAvailable (p : Product) (b : Bool) : Product :=
  { p with available := b }

/-- Answers a with one extra selected focus area appended. -/
def addFocus (a : Answers) (f : String) : Answers :=
  { a with focus := some ((a.focus.getD []) ++ [f]) }

/-- A neutral sample product used to instantiate universally quantified
theorems at concrete inputs. -/
def sampleProduct (h : String) : Product :=
  ⟨h, [], true, ⟨fun _ => none, none, none⟩⟩

/-- A sample answer set. -/
def sampleAnswers : Answers :=
  ⟨some "strength", some 5, some "small", some ["mobility"]⟩

end Quiz

/-! ## Quote system (assets/quote-system.js, class QuoteSystem)

localStorage stores strings; the value under the key quoteItems is always a
JSON text, so it is modelled by the JSON value it denotes (`none` when the
key is absent; `JSON.parse(null) || []` then yields the empty list).
`JSON.stringify` is the encoder into this value type and `JSON.parse`
followed by the untyped use of the result as an item array is the decoder;
the catch branch of loadItems maps any failure to the empty list. -/

namespace Quote

/-- A JSON value, as produced by JSON.parse / consumed by JSON.stringify.
Object fields keep insertion order, which both stringify and parse
preserve. -/
inductive JVal where
  | str (s : String)
  | num (n : Nat)
  | arr (elems : List JVal)
  | obj (fields : List (String × JVal))

/-- JavaScript object property lookup over the (insertion-ordered) fields. -/
def jLookup (fields : List (String × JVal)) (k : String) : Option JVal :=
  match fields with
  | [] => none
  | (k2, v) :: t => if k2 = k then some v else jLookup t k

def asStr : Option JVal → Option String
  | some (.str s) => some s
  | _ => none

/-- One quote line item.  Items created by addItem carry the eight string
fields read off the button dataset; items created by convertCartToQuote
additionally carry a quantity (absent means the JavaScript property is
undefined). -/
structure QuoteItem where
  id : String
  productId : String
  productTitle : String
  productHandle : String
  productImage : String
  variantId : String
  variantTitle : String
  variantPrice : String
  quantity : Option Nat
deriving DecidableEq

/-- JSON.stringify of one item: the string fields in declaration order;
a property holding undefined (no quantity) is omitted by stringify. -/
def encodeItem (it : QuoteItem) : JVal :=
  .obj ([("id", .str it.id),
         ("productId", .str it.productId),
         ("productTitle", .str it.productTitle),
         ("productHandle", .str it.productHandle),
         ("productImage", .str it.productImage),
         ("variantId", .str it.variantId),
         ("variantTitle", .str it.variantTitle),
         ("variantPrice", .str it.variantPrice)] ++
        (match it.quantity with
         | some q => [("quantity", JVal.num q)]
         | none => []))

/-- Reading one parsed item back into its typed form. -/
def decodeItem (j : JVal) : Option QuoteItem :=
  match j with
  | .obj fs =>
    match asStr (jLookup fs "id"), asStr (jLookup fs "productId"),
          asStr (jLookup fs "productTitle"), asStr (jLookup fs "productHandle"),
          asStr (jLookup fs "productImage"), asStr (jLookup fs "variantId"),
          asStr (jLookup fs "variantTitle"), asStr (jLookup fs "variantPrice") with
    | some i, some pid, some pt, some ph, some pim, some vid, some vt, some vp =>
      match jLookup fs "quantity" with
      | none => some ⟨i, pid, pt, ph, pim, vid, vt, vp, none⟩
      | some (.num q) => some ⟨i, pid, pt, ph, pim, vid, vt, vp, some q⟩
      | some _ => none
    | _, _, _, _, _, _, _, _ => none
  | _ => none

def decodeItemList : List JVal → Option (List QuoteItem)
  | [] => some []
  | j :: t =>
    match decodeItem j, decodeItemList t with
    | some it, some its => some (it :: its)
    | _, _ => none

def decodeItems : JVal → Option (List QuoteItem)
  | .arr es => decodeItemList es
  | _ => none

/-- QuoteSystem.loadItems: parse the stored value, with both the missing-key
case (null || []) and the catch branch yielding the empty list. -/
def loadItems : Option JVal → List QuoteItem
  | none => []
  | some j => (decodeItems j).getD []

/-- QuoteSystem.saveItems: store the JSON array of the current items. -/
def saveItems (items : List QuoteItem) : Option JVal :=
  some (.arr (items.map encodeItem))

/-- The mutable state of the widget: this.items together with the stored
localStorage value. -/
structure QuoteState where
  items : List QuoteItem
  stored : Option JVal

/-- QuoteSystem.addItem: the item built from the button dataset is appended
and saved only when no existing item has the same productId and variantId. -/
def addItem (item : QuoteItem) (s : QuoteState) : QuoteState :=
  match s.items.find? (fun i => i.productId == item.productId && i.variantId == item.variantId) with
  | some _ => s
  | none =>
    let items2 := s.items ++ [item]
    ⟨items2, saveItems items2⟩

/-- QuoteSystem.removeItem: drop the item with the given id and save. -/
def removeItem (itemId : String) (s : QuoteState) : QuoteState :=
  let items2 := s.items.filter (fun i => i.id != itemId)
  ⟨items2, saveItems items2⟩

/-- One line of the /cart.js payload, with the fields convertCartToQuote
reads.  The numeric Shopify ids are converted to strings with toString in
the source. -/
structure CartItem where
  productId : Nat
  variantId : Nat
  productTitle : String
  handle : String
  image : String
  variantTitle : String
  price : Nat
  quantity : Nat

/-- Theme.formatMoney (assets/global.js) on its default path:
`$` followed by (cents / 100).toFixed(2). -/
def formatMoney (cents : Nat) : String :=
  "$" ++ toString (cents / 100) ++ "." ++
    (if cents % 100 < 10 then "0" else "") ++ toString (cents % 100)

/-- The quote item convertCartToQuote builds for one cart line; now is the
Date.now().toString() timestamp prefixed to the generated id. -/
def cartItemToQuoteItem (now : String) (c : CartItem) : QuoteItem :=
  ⟨now ++ toString c.variantId, toString c.productId, c.productTitle, c.handle,
   c.image, toString c.variantId, c.variantTitle, formatMoney c.price, some c.quantity⟩

/-- QuoteSystem.convertCartToQuote: walk the cart lines, pushing each one
whose (productId, variantId) pair is not already present (the find runs over
the same array being pushed to, hence the fold accumulator), then save
once. -/
def convertCartToQuote (now : String) (cart : List CartItem) (s : QuoteState) : QuoteState :=
  let items2 := cart.foldl
    (fun acc c =>
      if acc.any (fun i => i.productId == toString c.productId && i.variantId == toString c.variantId)
      then acc
      else acc ++ [cartItemToQuoteItem now c])
    s.items
  ⟨items2, saveItems items2⟩

/-- QuoteSystem.handleSubmit: the item list is cleared and saved after the
form submits. -/
def clearItems (_s : QuoteState) : QuoteState :=
  ⟨[], saveItems []⟩

/-- The operations that modify the quote item list. -/
inductive QuoteOp where
  | add (item : QuoteItem)
  | remove (itemId : String)
  | convertCart (now : String) (cart : List CartItem)
  | submitClear

def applyOp (s : QuoteState) : QuoteOp → QuoteState
  | .add item => addItem item s
  | .remove itemId => removeItem itemId s
  | .convertCart now cart => convertCartToQuote now cart s
  | .submitClear => clearItems s

/-- The widget state right after the constructor ran: this.items is
initialised from loadItems on the current store. -/
def initState (stored : Option JVal) : QuoteState :=
  ⟨loadItems stored, stored⟩

/-- No two items share the same (productId, variantId) pair. -/
def DistinctKeys (items : List QuoteItem) : Prop :=
  items.Pairwise fun a b => ¬(a.productId = b.productId ∧ a.variantId = b.variantId)

/-- A sample quote item for concrete instantiations. -/
def sampleItem (i pid vid : String) : QuoteItem :=
  ⟨i, pid, "Sample", "sample", "img", vid, "Default Title", "$10.00", none⟩

end Quote

/-! ## Shared shape of the two predictive-search widgets

Both widgets consume the suggest endpoint payload
`data.resources.results = ( products, articles, pages )`; each entry carries a
title and a url (further display fields play no role in the verified
behaviour).  The asynchronous fetch life-cycle is made explicit: every issued
network call gets a fresh identifier, an AbortController abort marks the
identifier aborted, and a fetch settles at most once — with data when it was
never aborted, or with an AbortError rejection (modelled by completing an
aborted identifier) otherwise. -/

namespace Search

structure SearchEntry where
  title : String
  url : String
deriving DecidableEq

structure ResultSet where
  products : List SearchEntry
  articles : List SearchEntry
  pages : List SearchEntry
deriving DecidableEq

/-- String.prototype.trim: strip leading and trailing whitespace. -/
def jsTrim (s : String) : String :=
  ⟨((s.data.dropWhile Char.isWhitespace).reverse.dropWhile Char.isWhitespace).reverse⟩

/-- Lookup in a query cache, plain-object property access by exact string
key (this.cache[query] and this.cachedResults[searchTerm]). -/
def cacheLookup (cache : List (String × ResultSet)) (q : String) : Option ResultSet :=
  match cache with
  | [] => none
  | (k, v) :: t => if k = q then some v else cacheLookup t q

/-- The query a given request identifier was issued for. -/
def findQuery (issued : List (Nat × String)) (id : Nat) : Option String :=
  match issued with
  | [] => none
  | (i, q) :: t => if i = id then some q else findQuery t id

def sampleEntryA : SearchEntry := ⟨"Alpha", "/products/alpha"⟩

def sampleEntryB : SearchEntry := ⟨"Beta", "/products/beta"⟩

def dataA : ResultSet := ⟨[sampleEntryA], [], []⟩

def dataB : ResultSet := ⟨[sampleEntryB], [], []⟩

def emptyData : ResultSet := ⟨[], [], []⟩

end Search

/-! ## Predictive search modal (src/unnamed/part_001, class PredictiveSearch) -/

namespace PS

open Search

/-- The non-breaking space character, which the HTML fragment serializer also
escapes. -/
def nbspChar : Char := Char.ofNat 160

/-- The characters the browser serializer emits for one text character:
escapeHtml assigns the text to div.textContent and reads back div.innerHTML,
which escapes ampersand, the angle brackets and the non-breaking space and
leaves every other character (quotes included) unchanged. -/
def escChar (c : Char) : List Char :=
  if c = '&' then ['&', 'a', 'm', 'p', ';']
  else if c = '<' then ['&', 'l', 't', ';']
  else if c = '>' then ['&', 'g', 't', ';']
  else if c = nbspChar then ['&', 'n', 'b', 's', 'p', ';']
  else [c]

def escChars : List Char → List Char
  | [] => []
  | c :: t => escChar c ++ escChars t

/-- PredictiveSearch.escapeHtml. -/
def escapeHtml (text : String) : String :=
  ⟨escChars text.data⟩

/-- The text denotation of escaped markup: how an HTML parser reads a text
node back, decoding the four entities the serializer produces. -/
def unescChars : List Char → List Char
  | [] => []
  | c :: t =>
    if c = '&' then
      match t with
      | 'a' :: 'm' :: 'p' :: ';' :: r => '&' :: unescChars r
      | 'l' :: 't' :: ';' :: r => '<' :: unescChars r
      | 'g' :: 't' :: ';' :: r => '>' :: unescChars r
      | 'n' :: 'b' :: 's' :: 'p' :: ';' :: r => nbspChar :: unescChars r
      | t2 => c :: unescChars t2
    else c :: unescChars t

def unescapeHtml (text : String) : String :=
  ⟨unescChars text.data⟩

/-- The opening part of the empty-state fragment of
PredictiveSearch.renderResults, up to the escaped query. -/
def emptyResultsPre : String :=
  "\n        <div class=\"search-results__empty\">\n          <p>No results found for \"<strong>"

/-- The closing part of the same fragment, after the escaped query. -/
def emptyResultsPost : String :=
  "</strong>\"</p>\n          <p class=\"search-results__empty-hint\">Try different keywords or browse our collections</p>\n        </div>\n      "

/-- The innerHTML assigned by the empty-results branch of renderResults. -/
def emptyResultsHtml (q : String) : String :=
  emptyResultsPre ++ escapeHtml q ++ emptyResultsPost

/-- What the results container currently shows. The non-empty branch of
renderResults is represented by the payload and query it renders from. -/
inductive SearchRender where
  | cleared
  | loading
  | error
  | noResults (html : String)
  | results (data : ResultSet) (query : String)
deriving DecidableEq

/-- The instance state of the modal widget: the constructor fields cache,
selectedIndex, debounceTimeout (the query a pending timer would search) and
abortController (the identifier the current controller would abort), plus
explicit request bookkeeping for the asynchronous part. -/
structure PSState where
  cache : List (String × ResultSet)
  selectedIndex : Int
  pendingSearch : Option String
  abortCtrl : Option Nat
  nextReq : Nat
  issued : List (Nat × String)
  aborted : List Nat
  completed : List Nat
  rendered : SearchRender
deriving DecidableEq

def init : PSState :=
  ⟨[], -1, none, none, 0, [], [], [], .cleared⟩

/-- PredictiveSearch.renderResults: all three result groups empty renders the
no-results fragment (and returns early, leaving selectedIndex untouched);
otherwise the grouped sections render and selectedIndex resets to -1. -/
def renderResults (data : ResultSet) (query : String) (s : PSState) : PSState :=
  if data.products.isEmpty && data.articles.isEmpty && data.pages.isEmpty then
    { s with rendered := .noResults (emptyResultsHtml query) }
  else
    { s with rendered := .results data query, selectedIndex := -1 }

/-- PredictiveSearch.search: a cache hit renders the cached payload and
returns; otherwise the previous AbortController (if any) is aborted, a fresh
one is installed and the network call is issued.  Completion is a separate
event. -/
def search (query : String) (s : PSState) : PSState :=
  match cacheLookup s.cache query with
  | some data => renderResults data query s
  | none =>
    let aborted2 :=
      match s.abortCtrl with
      | some i => s.aborted ++ [i]
      | none => s.aborted
    { s with
      aborted := aborted2,
      abortCtrl := some s.nextReq,
      nextReq := s.nextReq + 1,
      issued := s.issued ++ [(s.nextReq, query)] }

/-- PredictiveSearch.handleInput: trim, clear the pending debounce timer,
clear the container for queries shorter than 2 characters, otherwise show
the loading state and schedule the search. -/
def handleInput (value : String) (s : PSState) : PSState :=
  let query := jsTrim value
  let s1 := { s with pendingSearch := none }
  if query.length < 2 then
    { s1 with rendered := .cleared }
  else
    { s1 with rendered := .loading, pendingSearch := some query }

/-- The debounce timer fires: the scheduled search runs. -/
def fireDebounce (s : PSState) : PSState :=
  match s.pendingSearch with
  | some q => search q { s with pendingSearch := none }
  | none => s

/-- Keys handled by PredictiveSearch.handleKeydown. -/
inductive Key where
  | arrowDown
  | arrowUp
  | enter
  | other

/-- Effect of PredictiveSearch.handleKeydown on selectedIndex, given the
number of rendered result rows: nothing moves without rows, ArrowDown clamps
at the last row, ArrowUp clamps at -1. -/
def handleKeydown (k : Key) (resultCount : Nat) (idx : Int) : Int :=
  if resultCount = 0 then idx
  else
    match k with
    | .arrowDown => min (idx + 1) ((resultCount : Int) - 1)
    | .arrowUp => max (idx - 1) (-1)
    | _ => idx

/-- The number of [data-search-result] rows the container currently holds:
one per product, article and page of a rendered result section, none in the
loading, error, empty and cleared states. -/
def rowCount : SearchRender → Nat
  | .results data _ => data.products.length + data.articles.length + data.pages.length
  | _ => 0

/-- External events driving one widget instance: an input event, the
debounce timer firing, a keydown on the input, and a previously issued
fetch settling successfully or with a failure.  A fetch whose identifier
was aborted settles as an AbortError rejection. -/
inductive PSEvent where
  | input (value : String)
  | fire
  | keydown (k : Key)
  | complete (id : Nat) (data : ResultSet)
  | fail (id : Nat)

def step (s : PSState) : PSEvent → PSState
  | .input v => handleInput v s
  | .fire => fireDebounce s
  | .keydown k =>
    { s with selectedIndex := handleKeydown k (rowCount s.rendered) s.selectedIndex }
  | .complete id data =>
    if (findQuery s.issued id).isSome ∧ id ∉ s.completed then
      if id ∈ s.aborted then
        { s with completed := s.completed ++ [id] }
      else
        match findQuery s.issued id with
        | some q =>
          renderResults data q
            { s with cache := s.cache ++ [(q, data)], completed := s.completed ++ [id] }
        | none => s
    else s
  | .fail id =>
    if (findQuery s.issued id).isSome ∧ id ∉ s.completed then
      if id ∈ s.aborted then
        { s with completed := s.completed ++ [id] }
      else
        { s with completed := s.completed ++ [id], rendered := .error }
    else s

def run (events : List PSEvent) : PSState :=
  events.foldl step init

/-- The network calls that are still in flight: issued, not aborted, not yet
settled. -/
def outstanding (s : PSState) : List (Nat × String) :=
  s.issued.filter fun p => decide (p.1 ∉ s.aborted ∧ p.1 ∉ s.completed)

/-- Bookkeeping invariant of the request machinery: request identifiers are
issued in strictly increasing order below the fresh-identifier counter, and
any request that is neither aborted nor settled is the one the current
AbortController belongs to. -/
def inv (s : PSState) : Prop :=
  (s.issued.map Prod.fst).Pairwise (· < ·) ∧
  (∀ p ∈ s.issued, p.1 < s.nextReq) ∧
  (∀ p ∈ s.issued, p.1 ∉ s.aborted → p.1 ∉ s.completed → s.abortCtrl = some p.1)

end PS

/-! ## Predictive search custom element (assets/analytics.js, class PredictiveSearch) -/

namespace AN

open Search

/-- What the results list of the custom element shows. -/
inductive ANRender where
  | cleared
  | noResults (html : String)
  | results (data : ResultSet)
  | error
deriving DecidableEq

/-- The instance state of the custom element: the search input value,
this.cachedResults, this.abortController, request bookkeeping, the rendered
list, the open attribute and the loading attribute. -/
structure ANState where
  inputValue : String
  cachedResults : List (String × ResultSet)
  abortCtrl : Option Nat
  nextReq : Nat
  issued : List (Nat × String)
  aborted : List Nat
  completed : List Nat
  rendered : ANRender
  opened : Bool
  loading : Bool
deriving DecidableEq

def init : ANState :=
  ⟨"", [], none, 0, [], [], [], .cleared, false, false⟩

/-- The no-results fragment of renderSearchResults; unlike the modal widget
it interpolates this.input.value without escaping. -/
def noResultsHtml (v : String) : String :=
  "\n        <div class=\"predictive-search__no-results\">\n          <p>No results found for \"" ++
    v ++ "\"</p>\n        </div>\n      "

/-- PredictiveSearch.close (custom element): drop the open attribute and
empty the results list. -/
def close (s : ANState) : ANState :=
  { s with opened := false, rendered := .cleared }

/-- PredictiveSearch.renderSearchResults: empty payload renders the
no-results fragment, otherwise the grouped lists; either way the panel
opens.  Replacing innerHTML rebuilds every row with aria-selected false. -/
def renderSearchResults (data : ResultSet) (s : ANState) : ANState :=
  if data.products.isEmpty && data.articles.isEmpty && data.pages.isEmpty then
    { s with rendered := .noResults (noResultsHtml s.inputValue), opened := true }
  else
    { s with rendered := .results data, opened := true }

/-- PredictiveSearch.getSearchResults: a cache hit renders the cached data
and returns; otherwise the previous controller is aborted, a fresh one is
installed, loading is set and the call is issued. -/
def getSearchResults (q : String) (s : ANState) : ANState :=
  match cacheLookup s.cachedResults q with
  | some d => renderSearchResults d s
  | none =>
    let aborted2 :=
      match s.abortCtrl with
      | some i => s.aborted ++ [i]
      | none => s.aborted
    { s with
      aborted := aborted2,
      abortCtrl := some s.nextReq,
      nextReq := s.nextReq + 1,
      issued := s.issued ++ [(s.nextReq, q)],
      loading := true }

/-- PredictiveSearch.onChange (runs debounced on input): an empty trimmed
value closes the panel, a single character does nothing, otherwise the
search runs. -/
def onChange (s : ANState) : ANState :=
  let searchTerm := jsTrim s.inputValue
  if searchTerm.length = 0 then close s
  else if searchTerm.length < 2 then s
  else getSearchResults searchTerm s

/-- Events driving one custom-element instance: the debounced input change
(the field now holds v), and a previously issued fetch settling. -/
inductive ANEvent where
  | change (v : String)
  | complete (id : Nat) (data : ResultSet)
  | fail (id : Nat)

def step (s : ANState) : ANEvent → ANState
  | .change v => onChange { s with inputValue := v }
  | .complete id data =>
    if (findQuery s.issued id).isSome ∧ id ∉ s.completed then
      if id ∈ s.aborted then
        { s with completed := s.completed ++ [id], loading := false }
      else
        match findQuery s.issued id with
        | some q =>
          { renderSearchResults data
              { s with
                cachedResults := s.cachedResults ++ [(q, data)],
                completed := s.completed ++ [id] }
            with loading := false }
        | none => s
    else s
  | .fail id =>
    if (findQuery s.issued id).isSome ∧ id ∉ s.completed then
      if id ∈ s.aborted then
        { s with completed := s.completed ++ [id], loading := false }
      else
        { s with
          completed := s.completed ++ [id],
          rendered := .error, opened := true,
          loading := false }
    else s

def run (events : List ANEvent) : ANState :=
  events.foldl step init

def outstanding (s : ANState) : List (Nat × String) :=
  s.issued.filter fun p => decide (p.1 ∉ s.aborted ∧ p.1 ∉ s.completed)

/-- Bookkeeping invariant of the request machinery, as for the modal
widget. -/
def inv (s : ANState) : Prop :=
  (s.issued.map Prod.fst).Pairwise (· < ·) ∧
  (∀ p ∈ s.issued, p.1 < s.nextReq) ∧
  (∀ p ∈ s.issued, p.1 ∉ s.aborted → p.1 ∉ s.completed → s.abortCtrl = some p.1)

/-- Arrow-key directions of navigateResults. -/
inductive Direction where
  | up
  | down

/-- PredictiveSearch.navigateResults on the index of the aria-selected row
(-1 when none is selected): the selection wraps circularly at both ends. -/
def navigateResults (d : Direction) (itemCount : Nat) (idx : Int) : Int :=
  if itemCount = 0 then idx
  else
    match d with
    | .up => if idx > 0 then idx - 1 else (itemCount : Int) - 1
    | .down => if idx < (itemCount : Int) - 1 then idx + 1 else 0

end AN

/-! ## Theorems -/

/-! ### HTML escaping (modal widget) -/

theorem escChar_no_markup (c : Char) : ∀ x ∈ PS.escChar c, x ≠ '<' ∧ x ≠ '>' := by
  unfold PS.escChar
  split_ifs with h1 h2 h3 h4 <;> intro x hx <;> simp at hx
  · rcases hx with h | h | h | h | h <;> subst h <;> exact ⟨by decide, by decide⟩
  · rcases hx with h | h | h | h <;> subst h <;> exact ⟨by decide, by decide⟩
  · rcases hx with h | h | h | h <;> subst h <;> exact ⟨by decide, by decide⟩
  · rcases hx with h | h | h | h | h | h <;> subst h <;> exact ⟨by decide, by decide⟩
  · subst hx
    exact ⟨h2, h3⟩

theorem escChars_no_markup : ∀ l : List Char, ∀ x ∈ PS.escChars l, x ≠ '<' ∧ x ≠ '>' := by
  intro l
  induction l with
  | nil => intro x hx; simp [PS.escChars] at hx
  | cons c t ih =>
    intro x hx
    rw [PS.escChars] at hx
    rcases List.mem_append.mp hx with h | h
    · exact escChar_no_markup c x h
    · exact ih x h

theorem unescChars_escChars : ∀ l : List Char, PS.unescChars (PS.escChars l) = l := by
  intro l
  induction l with
  | nil => rfl
  | cons c t ih =>
    by_cases h1 : c = '&'
    · subst h1
      simp [PS.escChars, PS.escChar, PS.unescChars, ih]
    · by_cases h2 : c = '<'
      · subst h2
        simp [PS.escChars, PS.escChar, PS.unescChars, ih]
      · by_cases h3 : c = '>'
        · subst h3
          simp [PS.escChars, PS.escChar, PS.unescChars, ih]
        · by_cases h4 : c = PS.nbspChar
          · subst h4
            simp [PS.escChars, PS.escChar, PS.unescChars, ih]
          · have he : PS.escChar c = [c] := by simp [PS.escChar, h1, h2, h3, h4]
            simp only [PS.escChars, he, List.singleton_append]
            rw [PS.unescChars.eq_def]
            simp [h1, ih]

theorem unescapeHtml_escapeHtml (q : String) : PS.unescapeHtml (PS.escapeHtml q) = q := by
  cases q with
  | mk data =>
    show (⟨PS.unescChars (PS.escChars data)⟩ : String) = ⟨data⟩
    rw [unescChars_escChars]

/-- C7: rendering an empty ResultSet in the modal search widget produces the
no-results state whose markup embeds exactly the HTML-escaped literal query:
the escaped text contains no angle bracket (so it can never parse as markup)
and its text denotation is the query itself; in particular the query <b>
appears as the text &lt;b&gt;, never as a bold tag. -/
theorem claim_C7_empty_render_escapes_query :
    ∀ (data : Search.ResultSet) (q : String) (s : PS.PSState),
      data.products = [] → data.articles = [] → data.pages = [] →
      (PS.renderResults data q s).rendered = PS.SearchRender.noResults (PS.emptyResultsHtml q) ∧
      PS.emptyResultsHtml q = PS.emptyResultsPre ++ PS.escapeHtml q ++ PS.emptyResultsPost ∧
      (∀ c ∈ (PS.escapeHtml q).data, c ≠ '<' ∧ c ≠ '>') ∧
      PS.unescapeHtml (PS.escapeHtml q) = q ∧
      PS.escapeHtml "<b>" = "&lt;b&gt;" := by
  intro data q s hp ha hg
  refine ⟨?_, rfl, ?_, unescapeHtml_escapeHtml q, by decide⟩
  · simp [PS.renderResults, hp, ha, hg]
  · intro c hc
    exact escChars_no_markup q.data c hc

theorem claim_C7_witness :
    (PS.renderResults Search.emptyData "<b>" PS.init).rendered =
      PS.SearchRender.noResults (PS.emptyResultsHtml "<b>") ∧
    PS.unescapeHtml (PS.escapeHtml "<b>") = "<b>" :=
  ⟨(claim_C7_empty_render_escapes_query Search.emptyData "<b>" PS.init rfl rfl rfl).1,
   (claim_C7_empty_render_escapes_query Search.emptyData "<b>" PS.init rfl rfl rfl).2.2.2.1⟩

/-! ### Keyboard navigation -/

/-- C9 counterexample: the selection index is not reset on every new render.
In the modal widget, after a result row is selected with ArrowDown, a search
whose payload is empty renders the no-results state through the early-return
branch of renderResults and leaves selectedIndex at 0 instead of resetting
it to -1. -/
theorem claim_C9_counterexample :
    (PS.run [.input "ab", .fire, .complete 0 Search.dataA, .keydown .arrowDown,
             .input "zz", .fire, .complete 1 Search.emptyData]).rendered =
        PS.SearchRender.noResults (PS.emptyResultsHtml "zz") ∧
    (PS.run [.input "ab", .fire, .complete 0 Search.dataA, .keydown .arrowDown,
             .input "zz", .fire, .complete 1 Search.emptyData]).selectedIndex = 0 := by
  exact ⟨by decide, by decide⟩

/-- C9 (amended): ArrowDown / ArrowUp keep the selection index within
[-1, resultCount) in both widgets; the modal widget clamps at the bounds
(ArrowDown stops at resultCount - 1, ArrowUp stops at -1) while the custom
element wraps circularly (ArrowDown from the last row reaches the first,
ArrowUp from the first reaches the last); and the modal widget resets the
index to -1 on every render of a non-empty result set (the no-results render
leaves the index unchanged, as the counterexample shows). -/
theorem claim_C9_selection_bounds :
    (∀ (k : PS.Key) (count : Nat) (idx : Int),
        -1 ≤ idx → idx < (count : Int) →
        -1 ≤ PS.handleKeydown k count idx ∧ PS.handleKeydown k count idx < (count : Int)) ∧
    (∀ count : Nat, 0 < count →
        PS.handleKeydown .arrowDown count ((count : Int) - 1) = (count : Int) - 1 ∧
        PS.handleKeydown .arrowUp count (-1) = -1) ∧
    (∀ (d : AN.Direction) (count : Nat) (idx : Int),
        -1 ≤ idx → idx < (count : Int) → 0 < count →
        0 ≤ AN.navigateResults d count idx ∧ AN.navigateResults d count idx < (count : Int)) ∧
    (∀ count : Nat, 0 < count →
        AN.navigateResults .down count ((count : Int) - 1) = 0 ∧
        AN.navigateResults .up count 0 = (count : Int) - 1) ∧
    (∀ (data : Search.ResultSet) (q : String) (s : PS.PSState),
        (data.products.isEmpty && data.articles.isEmpty && data.pages.isEmpty) = false →
        (PS.renderResults data q s).selectedIndex = -1) := by
  refine ⟨?_, ?_, ?_, ?_, ?_⟩
  · intro k count idx h1 h2
    unfold PS.handleKeydown
    by_cases hc : count = 0
    · subst hc
      simp
      omega
    · cases k <;> simp [hc] <;> omega
  · intro count hc
    unfold PS.handleKeydown
    have h0 : ¬ count = 0 := by omega
    simp [h0]
  · intro d count idx h1 h2 h3
    unfold AN.navigateResults
    have h0 : ¬ count = 0 := by omega
    cases d <;> simp [h0] <;> omega
  · intro count hc
    unfold AN.navigateResults
    have h0 : ¬ count = 0 := by omega
    simp [h0]
  · intro data q s h
    simp only [PS.renderResults, h]
    simp

theorem claim_C9_witness :
    (-1 ≤ PS.handleKeydown .arrowDown 2 0 ∧ PS.handleKeydown .arrowDown 2 0 < ((2 : Nat) : Int)) ∧
    (PS.handleKeydown .arrowDown 2 (((2 : Nat) : Int) - 1) = ((2 : Nat) : Int) - 1 ∧
     PS.handleKeydown .arrowUp 2 (-1) = -1) ∧
    (0 ≤ AN.navigateResults .down 2 1 ∧ AN.navigateResults .down 2 1 < ((2 : Nat) : Int)) ∧
    (AN.navigateResults .down 2 (((2 : Nat) : Int) - 1) = 0 ∧
     AN.navigateResults .up 2 0 = ((2 : Nat) : Int) - 1) ∧
    (PS.renderResults Search.dataA "ab" PS.init).selectedIndex = -1 :=
  ⟨claim_C9_selection_bounds.1 .arrowDown 2 0 (by decide) (by decide),
   claim_C9_selection_bounds.2.1 2 (by decide),
   claim_C9_selection_bounds.2.2.1 .down 2 1 (by decide) (by decide) (by decide),
   claim_C9_selection_bounds.2.2.2.1 2 (by decide),
   claim_C9_selection_bounds.2.2.2.2 Search.dataA "ab" PS.init (by decide)⟩

/-! ### Short queries -/

/-- C2 counterexample: in the custom-element widget an input whose trimmed
value has length 1 issues no network call but also does not clear the
rendered results: after results for ab are shown, typing a leaves them
rendered (the claim requires the container to be emptied). -/
theorem claim_C2_counterexample :
    (AN.run [.change "ab", .complete 0 Search.dataA, .change "a"]).rendered =
      AN.ANRender.results Search.dataA ∧
    (AN.run [.change "ab", .complete 0 Search.dataA, .change "a"]).issued = [(0, "ab")] ∧
    (Search.jsTrim "a").length < 2 :=
  ⟨by decide, by decide, by decide⟩

/-- C2 (amended): a trimmed query of length below 2 never issues a network
call in either widget.  The modal widget also clears its results container
(and cancels the pending debounced search); the custom element closes and
clears only for an empty trimmed value, while for a length-1 value it
returns early, leaving the previously rendered results in place. -/
theorem claim_C2_short_query :
    (∀ (v : String) (s : PS.PSState),
        (Search.jsTrim v).length < 2 →
        PS.handleInput v s = { s with pendingSearch := none, rendered := .cleared }) ∧
    (∀ (v : String) (s : AN.ANState),
        (Search.jsTrim v).length = 0 →
        AN.step s (.change v) = AN.close { s with inputValue := v }) ∧
    (∀ (v : String) (s : AN.ANState),
        (Search.jsTrim v).length = 1 →
        AN.step s (.change v) = { s with inputValue := v }) := by
  refine ⟨?_, ?_, ?_⟩
  · intro v s h
    simp [PS.handleInput, h]
  · intro v s h
    simp [AN.step, AN.onChange, h]
  · intro v s h
    have h0 : ¬ (Search.jsTrim v).length = 0 := by omega
    have h2 : (Search.jsTrim v).length < 2 := by omega
    simp [AN.step, AN.onChange, h0, h2]

theorem claim_C2_witness :
    PS.handleInput "a" PS.init = { PS.init with pendingSearch := none, rendered := .cleared } ∧
    AN.step AN.init (.change "") = AN.close { AN.init with inputValue := "" } ∧
    AN.step AN.init (.change "a") = { AN.init with inputValue := "a" } :=
  ⟨claim_C2_short_query.1 "a" PS.init (by decide),
   claim_C2_short_query.2.1 "" AN.init (by decide),
   claim_C2_short_query.2.2 "a" AN.init (by decide)⟩

/-! ### Cache hits -/

/-- C3: in both widgets, a search for a query already present in the cache
issues no network call (no request is added, the cache is unchanged) and
renders exactly the cached ResultSet through the ordinary render routine. -/
theorem claim_C3_cache_hit :
    (∀ (s : PS.PSState) (q : String) (d : Search.ResultSet),
        Search.cacheLookup s.cache q = some d →
        PS.search q s = PS.renderResults d q s ∧
        (PS.search q s).issued = s.issued ∧
        (PS.search q s).cache = s.cache ∧
        (PS.search q s).rendered =
          (if d.products.isEmpty && d.articles.isEmpty && d.pages.isEmpty
           then PS.SearchRender.noResults (PS.emptyResultsHtml q)
           else PS.SearchRender.results d q)) ∧
    (∀ (s : AN.ANState) (q : String) (d : Search.ResultSet),
        Search.cacheLookup s.cachedResults q = some d →
        AN.getSearchResults q s = AN.renderSearchResults d s ∧
        (AN.getSearchResults q s).issued = s.issued ∧
        (AN.getSearchResults q s).cachedResults = s.cachedResults ∧
        (AN.getSearchResults q s).rendered =
          (if d.products.isEmpty && d.articles.isEmpty && d.pages.isEmpty
           then AN.ANRender.noResults (AN.noResultsHtml s.inputValue)
           else AN.ANRender.results d)) := by
  constructor
  · intro s q d h
    have hs : PS.search q s = PS.renderResults d q s := by
      simp [PS.search, h]
    refine ⟨hs, ?_, ?_, ?_⟩ <;> rw [hs] <;>
      by_cases hc : (d.products.isEmpty && d.articles.isEmpty && d.pages.isEmpty) = true <;>
        simp [PS.renderResults, hc]
  · intro s q d h
    have hs : AN.getSearchResults q s = AN.renderSearchResults d s := by
      simp [AN.getSearchResults, h]
    refine ⟨hs, ?_, ?_, ?_⟩ <;> rw [hs] <;>
      by_cases hc : (d.products.isEmpty && d.articles.isEmpty && d.pages.isEmpty) = true <;>
        simp [AN.renderSearchResults, hc]

theorem claim_C3_witness :
    PS.search "ab" { PS.init with cache := [("ab", Search.dataA)] } =
      PS.renderResults Search.dataA "ab" { PS.init with cache := [("ab", Search.dataA)] } ∧
    (PS.search "ab" { PS.init with cache := [("ab", Search.dataA)] }).issued = [] ∧
    AN.getSearchResults "ab" { AN.init with cachedResults := [("ab", Search.dataA)] } =
      AN.renderSearchResults Search.dataA { AN.init with cachedResults := [("ab", Search.dataA)] } :=
  ⟨(claim_C3_cache_hit.1 { PS.init with cache := [("ab", Search.dataA)] } "ab" Search.dataA (by decide)).1,
   (claim_C3_cache_hit.1 { PS.init with cache := [("ab", Search.dataA)] } "ab" Search.dataA (by decide)).2.1,
   (claim_C3_cache_hit.2 { AN.init with cachedResults := [("ab", Search.dataA)] } "ab" Search.dataA (by decide)).1⟩

/-! ### Abort discipline of the fetch client -/

theorem ps_inv_mono (s s' : PS.PSState) (h : PS.inv s)
    (hiss : s'.issued = s.issued) (hnext : s'.nextReq = s.nextReq)
    (hctrl : s'.abortCtrl = s.abortCtrl)
    (hab : ∀ x, x ∈ s.aborted → x ∈ s'.aborted)
    (hcp : ∀ x, x ∈ s.completed → x ∈ s'.completed) : PS.inv s' := by
  obtain ⟨h1, h2, h3⟩ := h
  refine ⟨by rw [hiss]; exact h1, ?_, ?_⟩
  · intro p hp
    rw [hnext]
    exact h2 p (hiss ▸ hp)
  · intro p hp hpa hpc
    rw [hctrl]
    exact h3 p (hiss ▸ hp) (fun hx => hpa (hab _ hx)) (fun hx => hpc (hcp _ hx))

theorem ps_inv_renderResults (d : Search.ResultSet) (q : String) (s : PS.PSState)
    (h : PS.inv s) : PS.inv (PS.renderResults d q s) := by
  unfold PS.renderResults
  split
  · exact ps_inv_mono s _ h rfl rfl rfl (fun _ hx => hx) (fun _ hx => hx)
  · exact ps_inv_mono s _ h rfl rfl rfl (fun _ hx => hx) (fun _ hx => hx)

theorem ps_inv_search (q : String) (s : PS.PSState) (h : PS.inv s) :
    PS.inv (PS.search q s) := by
  unfold PS.search
  cases hm : Search.cacheLookup s.cache q with
  | some d => exact ps_inv_renderResults d q s h
  | none =>
    obtain ⟨h1, h2, h3⟩ := h
    refine ⟨?_, ?_, ?_⟩
    · simp only [List.map_append]
      rw [List.pairwise_append]
      refine ⟨h1, by simp, ?_⟩
      intro a ha b hb
      have hb2 : b = s.nextReq := by simpa using hb
      subst hb2
      obtain ⟨p, hp, rfl⟩ := List.mem_map.mp ha
      exact h2 p hp
    · intro p hp
      simp at hp
      rcases hp with hp | hp
      · exact Nat.lt_succ_of_lt (h2 p hp)
      · simp [hp]
    · intro p hp hpa hpc
      simp at hp
      rcases hp with hp | hp
      · exfalso
        cases hc : s.abortCtrl with
        | none => exact Option.noConfusion (hc ▸ h3 p hp (fun hx => hpa (by simp [hc] at hpa ⊢; exact hx)) hpc)
        | some i =>
          have := h3 p hp ?_ hpc
          · rw [hc] at this
            apply hpa
            simp [hc]
            right
            exact (Option.some.injEq _ _ ▸ this.symm)
          · intro hx
            apply hpa
            simp [hc]
            left
            exact hx
      · simp [hp]

theorem ps_inv_step (s : PS.PSState) (e : PS.PSEvent) (h : PS.inv s) :
    PS.inv (PS.step s e) := by
  cases e with
  | input v =>
    show PS.inv (PS.handleInput v s)
    by_cases hq : (Search.jsTrim v).length < 2
    · have he : PS.handleInput v s = { s with pendingSearch := none, rendered := .cleared } := by
        simp [PS.handleInput, hq]
      rw [he]
      exact ps_inv_mono s _ h rfl rfl rfl (fun _ hx => hx) (fun _ hx => hx)
    · have he : PS.handleInput v s =
          { s with pendingSearch := some (Search.jsTrim v), rendered := .loading } := by
        simp [PS.handleInput, hq]
      rw [he]
      exact ps_inv_mono s _ h rfl rfl rfl (fun _ hx => hx) (fun _ hx => hx)
  | fire =>
    show PS.inv (PS.fireDebounce s)
    unfold PS.fireDebounce
    cases hp : s.pendingSearch with
    | none => exact h
    | some q =>
      apply ps_inv_search
      exact ps_inv_mono s _ h rfl rfl rfl (fun _ hx => hx) (fun _ hx => hx)
  | keydown k =>
    exact ps_inv_mono s _ h rfl rfl rfl (fun _ hx => hx) (fun _ hx => hx)
  | complete id d =>
    show PS.inv (PS.step s (.complete id d))
    unfold PS.step
    dsimp only
    split
    · split
      · exact ps_inv_mono s _ h rfl rfl rfl (fun _ hx => hx) (fun _ hx => by simp [hx])
      · split
        · apply ps_inv_renderResults
          exact ps_inv_mono s _ h rfl rfl rfl (fun _ hx => hx) (fun _ hx => by simp [hx])
        · exact h
    · exact h
  | fail id =>
    show PS.inv (PS.step s (.fail id))
    unfold PS.step
    dsimp only
    split
    · split
      · exact ps_inv_mono s _ h rfl rfl rfl (fun _ hx => hx) (fun _ hx => by simp [hx])
      · exact ps_inv_mono s _ h rfl rfl rfl (fun _ hx => hx) (fun _ hx => by simp [hx])
    · exact h

theorem ps_inv_foldl (l : List PS.PSEvent) :
    ∀ s : PS.PSState, PS.inv s → PS.inv (l.foldl PS.step s) := by
  induction l with
  | nil => intro s h; exact h
  | cons e t ih =>
    intro s h
    exact ih (PS.step s e) (ps_inv_step s e h)

theorem ps_inv_run (tr : List PS.PSEvent) : PS.inv (PS.run tr) := by
  apply ps_inv_foldl
  refine ⟨?_, ?_, ?_⟩ <;> simp [PS.init]

theorem ps_outstanding_len (s : PS.PSState) (h : PS.inv s) :
    (PS.outstanding s).length ≤ 1 := by
  obtain ⟨h1, h2, h3⟩ := h
  unfold PS.outstanding
  cases hl : s.issued.filter (fun p => decide (p.1 ∉ s.aborted ∧ p.1 ∉ s.completed)) with
  | nil => simp
  | cons a t =>
    cases t with
    | nil => simp
    | cons b t2 =>
      exfalso
      have hsub : List.Sublist (a :: b :: t2) s.issued := by
        rw [← hl]
        exact List.filter_sublist _
      have hpw : ((a :: b :: t2).map Prod.fst).Pairwise (· < ·) :=
        List.Pairwise.sublist (List.Sublist.map _ hsub) h1
      have hlt : a.1 < b.1 := by
        simp [List.pairwise_cons] at hpw
        exact hpw.1.1
      have ha : a ∈ s.issued.filter (fun p => decide (p.1 ∉ s.aborted ∧ p.1 ∉ s.completed)) := by
        rw [hl]; exact List.mem_cons_self _ _
      have hb : b ∈ s.issued.filter (fun p => decide (p.1 ∉ s.aborted ∧ p.1 ∉ s.completed)) := by
        rw [hl]; exact List.mem_cons_of_mem _ (List.mem_cons_self _ _)
      obtain ⟨hams, hap⟩ := List.mem_filter.mp ha
      obtain ⟨hbms, hbp⟩ := List.mem_filter.mp hb
      simp only [decide_eq_true_eq] at hap hbp
      have hca := h3 a hams hap.1 hap.2
      have hcb := h3 b hbms hbp.1 hbp.2
      rw [hca] at hcb
      have : a.1 = b.1 := Option.some.inj hcb
      omega

theorem ps_search_miss (s : PS.PSState) (q : String) (h : PS.inv s)
    (hm : Search.cacheLookup s.cache q = none) :
    (PS.search q s).issued = s.issued ++ [(s.nextReq, q)] ∧
    ∀ p ∈ PS.outstanding s, p.1 ∈ (PS.search q s).aborted := by
  unfold PS.search
  rw [hm]
  constructor
  · rfl
  · intro p hp
    obtain ⟨hmem, hpred⟩ := List.mem_filter.mp hp
    simp only [decide_eq_true_eq] at hpred
    have hctrl := h.2.2 p hmem hpred.1 hpred.2
    rw [hctrl]
    simp

theorem ps_abort_swallow (s : PS.PSState) (id : Nat) (d : Search.ResultSet)
    (hab : id ∈ s.aborted) :
    (PS.step s (.complete id d)).rendered = s.rendered ∧
    (PS.step s (.complete id d)).cache = s.cache ∧
    (PS.step s (.fail id)).rendered = s.rendered := by
  have hc1 : PS.step s (.complete id d) =
      (if (Search.findQuery s.issued id).isSome = true ∧ id ∉ s.completed
       then { s with completed := s.completed ++ [id] } else s) := by
    unfold PS.step
    dsimp only
    by_cases hcond : (Search.findQuery s.issued id).isSome = true ∧ id ∉ s.completed
    · rw [if_pos hcond, if_pos hcond, if_pos hab]
    · rw [if_neg hcond, if_neg hcond]
  have hc2 : PS.step s (.fail id) =
      (if (Search.findQuery s.issued id).isSome = true ∧ id ∉ s.completed
       then { s with completed := s.completed ++ [id] } else s) := by
    unfold PS.step
    dsimp only
    by_cases hcond : (Search.findQuery s.issued id).isSome = true ∧ id ∉ s.completed
    · rw [if_pos hcond, if_pos hcond, if_pos hab]
    · rw [if_neg hcond, if_neg hcond]
  refine ⟨?_, ?_, ?_⟩
  · rw [hc1]
    split <;> rfl
  · rw [hc1]
    split <;> rfl
  · rw [hc2]
    split <;> rfl

theorem an_inv_mono (s s' : AN.ANState) (h : AN.inv s)
    (hiss : s'.issued = s.issued) (hnext : s'.nextReq = s.nextReq)
    (hctrl : s'.abortCtrl = s.abortCtrl)
    (hab : ∀ x, x ∈ s.aborted → x ∈ s'.aborted)
    (hcp : ∀ x, x ∈ s.completed → x ∈ s'.completed) : AN.inv s' := by
  obtain ⟨h1, h2, h3⟩ := h
  refine ⟨by rw [hiss]; exact h1, ?_, ?_⟩
  · intro p hp
    rw [hnext]
    exact h2 p (hiss ▸ hp)
  · intro p hp hpa hpc
    rw [hctrl]
    exact h3 p (hiss ▸ hp) (fun hx => hpa (hab _ hx)) (fun hx => hpc (hcp _ hx))

theorem an_inv_renderSearchResults (d : Search.ResultSet) (s : AN.ANState)
    (h : AN.inv s) : AN.inv (AN.renderSearchResults d s) := by
  unfold AN.renderSearchResults
  split
  · exact an_inv_mono s _ h rfl rfl rfl (fun _ hx => hx) (fun _ hx => hx)
  · exact an_inv_mono s _ h rfl rfl rfl (fun _ hx => hx) (fun _ hx => hx)

theorem an_inv_getSearchResults (q : String) (s : AN.ANState) (h : AN.inv s) :
    AN.inv (AN.getSearchResults q s) := by
  unfold AN.getSearchResults
  cases hm : Search.cacheLookup s.cachedResults q with
  | some d => exact an_inv_renderSearchResults d s h
  | none =>
    obtain ⟨h1, h2, h3⟩ := h
    refine ⟨?_, ?_, ?_⟩
    · simp only [List.map_append]
      rw [List.pairwise_append]
      refine ⟨h1, by simp, ?_⟩
      intro a ha b hb
      have hb2 : b = s.nextReq := by simpa using hb
      subst hb2
      obtain ⟨p, hp, rfl⟩ := List.mem_map.mp ha
      exact h2 p hp
    · intro p hp
      simp at hp
      rcases hp with hp | hp
      · exact Nat.lt_succ_of_lt (h2 p hp)
      · simp [hp]
    · intro p hp hpa hpc
      simp at hp
      rcases hp with hp | hp
      · exfalso
        cases hc : s.abortCtrl with
        | none => exact Option.noConfusion (hc ▸ h3 p hp (fun hx => hpa (by simp [hc] at hpa ⊢; exact hx)) hpc)
        | some i =>
          have := h3 p hp ?_ hpc
          · rw [hc] at this
            apply hpa
            simp [hc]
            right
            exact (Option.some.injEq _ _ ▸ this.symm)
          · intro hx
            apply hpa
            simp [hc]
            left
            exact hx
      · simp [hp]

theorem an_inv_step (s : AN.ANState) (e : AN.ANEvent) (h : AN.inv s) :
    AN.inv (AN.step s e) := by
  cases e with
  | change v =>
    show AN.inv (AN.onChange { s with inputValue := v })
    have hs : AN.inv { s with inputValue := v } :=
      an_inv_mono s _ h rfl rfl rfl (fun _ hx => hx) (fun _ hx => hx)
    by_cases h0 : (Search.jsTrim v).length = 0
    · have he : AN.onChange { s with inputValue := v } = AN.close { s with inputValue := v } := by
        simp [AN.onChange, h0]
      rw [he]
      exact an_inv_mono _ _ hs rfl rfl rfl (fun _ hx => hx) (fun _ hx => hx)
    · by_cases h2 : (Search.jsTrim v).length < 2
      · have he : AN.onChange { s with inputValue := v } = { s with inputValue := v } := by
          simp [AN.onChange, h0, h2]
        rw [he]
        exact hs
      · have he : AN.onChange { s with inputValue := v } =
            AN.getSearchResults (Search.jsTrim v) { s with inputValue := v } := by
          simp [AN.onChange, h0, h2]
        rw [he]
        exact an_inv_getSearchResults _ _ hs
  | complete id d =>
    show AN.inv (AN.step s (.complete id d))
    unfold AN.step
    dsimp only
    split
    · split
      · exact an_inv_mono s _ h rfl rfl rfl (fun _ hx => hx) (fun _ hx => by simp [hx])
      · split
        · apply an_inv_mono (AN.renderSearchResults d
            { s with cachedResults := s.cachedResults ++ [(_, d)], completed := s.completed ++ [id] })
          · apply an_inv_renderSearchResults
            exact an_inv_mono s _ h rfl rfl rfl (fun _ hx => hx) (fun _ hx => by simp [hx])
          all_goals first
            | rfl
            | (unfold AN.renderSearchResults; split <;> (intro x hx; exact hx))
        · exact h
    · exact h
  | fail id =>
    show AN.inv (AN.step s (.fail id))
    unfold AN.step
    dsimp only
    split
    · split
      · exact an_inv_mono s _ h rfl rfl rfl (fun _ hx => hx) (fun _ hx => by simp [hx])
      · exact an_inv_mono s _ h rfl rfl rfl (fun _ hx => hx) (fun _ hx => by simp [hx])
    · exact h

theorem an_inv_foldl (l : List AN.ANEvent) :
    ∀ s : AN.ANState, AN.inv s → AN.inv (l.foldl AN.step s) := by
  induction l with
  | nil => intro s h; exact h
  | cons e t ih =>
    intro s h
    exact ih (AN.step s e) (an_inv_step s e h)

theorem an_inv_run (tr : List AN.ANEvent) : AN.inv (AN.run tr) := by
  apply an_inv_foldl
  refine ⟨?_, ?_, ?_⟩ <;> simp [AN.init]

theorem an_outstanding_len (s : AN.ANState) (h : AN.inv s) :
    (AN.outstanding s).length ≤ 1 := by
  obtain ⟨h1, h2, h3⟩ := h
  unfold AN.outstanding
  cases hl : s.issued.filter (fun p => decide (p.1 ∉ s.aborted ∧ p.1 ∉ s.completed)) with
  | nil => simp
  | cons a t =>
    cases t with
    | nil => simp
    | cons b t2 =>
      exfalso
      have hsub : List.Sublist (a :: b :: t2) s.issued := by
        rw [← hl]
        exact List.filter_sublist _
      have hpw : ((a :: b :: t2).map Prod.fst).Pairwise (· < ·) :=
        List.Pairwise.sublist (List.Sublist.map _ hsub) h1
      have hlt : a.1 < b.1 := by
        simp [List.pairwise_cons] at hpw
        exact hpw.1.1
      have ha : a ∈ s.issued.filter (fun p => decide (p.1 ∉ s.aborted ∧ p.1 ∉ s.completed)) := by
        rw [hl]; exact List.mem_cons_self _ _
      have hb : b ∈ s.issued.filter (fun p => decide (p.1 ∉ s.aborted ∧ p.1 ∉ s.completed)) := by
        rw [hl]; exact List.mem_cons_of_mem _ (List.mem_cons_self _ _)
      obtain ⟨hams, hap⟩ := List.mem_filter.mp ha
      obtain ⟨hbms, hbp⟩ := List.mem_filter.mp hb
      simp only [decide_eq_true_eq] at hap hbp
      have hca := h3 a hams hap.1 hap.2
      have hcb := h3 b hbms hbp.1 hbp.2
      rw [hca] at hcb
      have : a.1 = b.1 := Option.some.inj hcb
      omega

theorem an_getSearchResults_miss (s : AN.ANState) (q : String) (h : AN.inv s)
    (hm : Search.cacheLookup s.cachedResults q = none) :
    (AN.getSearchResults q s).issued = s.issued ++ [(s.nextReq, q)] ∧
    ∀ p ∈ AN.outstanding s, p.1 ∈ (AN.getSearchResults q s).aborted := by
  unfold AN.getSearchResults
  rw [hm]
  constructor
  · rfl
  · intro p hp
    obtain ⟨hmem, hpred⟩ := List.mem_filter.mp hp
    simp only [decide_eq_true_eq] at hpred
    have hctrl := h.2.2 p hmem hpred.1 hpred.2
    rw [hctrl]
    simp

theorem an_abort_swallow (s : AN.ANState) (id : Nat) (d : Search.ResultSet)
    (hab : id ∈ s.aborted) :
    (AN.step s (.complete id d)).rendered = s.rendered ∧
    (AN.step s (.complete id d)).cachedResults = s.cachedResults ∧
    (AN.step s (.fail id)).rendered = s.rendered := by
  have hc1 : AN.step s (.complete id d) =
      (if (Search.findQuery s.issued id).isSome = true ∧ id ∉ s.completed
       then { s with completed := s.completed ++ [id], loading := false } else s) := by
    unfold AN.step
    dsimp only
    by_cases hcond : (Search.findQuery s.issued id).isSome = true ∧ id ∉ s.completed
    · rw [if_pos hcond, if_pos hcond, if_pos hab]
    · rw [if_neg hcond, if_neg hcond]
  have hc2 : AN.step s (.fail id) =
      (if (Search.findQuery s.issued id).isSome = true ∧ id ∉ s.completed
       then { s with completed := s.completed ++ [id], loading := false } else s) := by
    unfold AN.step
    dsimp only
    by_cases hcond : (Search.findQuery s.issued id).isSome = true ∧ id ∉ s.completed
    · rw [if_pos hcond, if_pos hcond, if_pos hab]
    · rw [if_neg hcond, if_neg hcond]
  refine ⟨?_, ?_, ?_⟩
  · rw [hc1]
    split <;> rfl
  · rw [hc1]
    split <;> rfl
  · rw [hc2]
    split <;> rfl

/-- C1 counterexample: a superseded request's result can be rendered.  In the
modal widget, search bb (request 0) completes and is cached; search aa issues
request 1; a new search for bb hits the cache, so the widget renders the
cached bb results WITHOUT aborting request 1 (the cache-hit branch of search
returns before the abort); when the superseded aa request then resolves, its
results replace the bb rendering, even though the last query the user issued
was bb.  The same cache-hit early return exists in getSearchResults of the
custom element. -/
theorem claim_C1_counterexample :
    (PS.run [.input "bb", .fire, .complete 0 Search.dataB, .input "aa", .fire,
             .input "bb", .fire]).rendered = PS.SearchRender.results Search.dataB "bb" ∧
    (1, "aa") ∈ PS.outstanding
      (PS.run [.input "bb", .fire, .complete 0 Search.dataB, .input "aa", .fire,
               .input "bb", .fire]) ∧
    (PS.run [.input "bb", .fire, .complete 0 Search.dataB, .input "aa", .fire,
             .input "bb", .fire, .complete 1 Search.dataA]).rendered =
      PS.SearchRender.results Search.dataA "aa" :=
  ⟨by decide, by decide, by decide⟩

/-- C1 (amended): in both widgets at most one network request is ever in
flight; a search whose query misses the cache aborts every outstanding
request before issuing the new network call; and a request that was aborted
never affects the rendering or the cache when it settles — its AbortError is
swallowed rather than rendered as an error state.  (A search whose query
hits the cache, however, renders the cached result without aborting the
outstanding request, whose late result may still be rendered — the
counterexample.) -/
theorem claim_C1_abort_discipline :
    (∀ tr : List PS.PSEvent, (PS.outstanding (PS.run tr)).length ≤ 1) ∧
    (∀ (tr : List PS.PSEvent) (q : String),
        Search.cacheLookup (PS.run tr).cache q = none →
        (PS.search q (PS.run tr)).issued = (PS.run tr).issued ++ [((PS.run tr).nextReq, q)] ∧
        ∀ p ∈ PS.outstanding (PS.run tr), p.1 ∈ (PS.search q (PS.run tr)).aborted) ∧
    (∀ (s : PS.PSState) (id : Nat) (d : Search.ResultSet), id ∈ s.aborted →
        (PS.step s (.complete id d)).rendered = s.rendered ∧
        (PS.step s (.complete id d)).cache = s.cache ∧
        (PS.step s (.fail id)).rendered = s.rendered) ∧
    (∀ tr : List AN.ANEvent, (AN.outstanding (AN.run tr)).length ≤ 1) ∧
    (∀ (tr : List AN.ANEvent) (q : String),
        Search.cacheLookup (AN.run tr).cachedResults q = none →
        (AN.getSearchResults q (AN.run tr)).issued =
          (AN.run tr).issued ++ [((AN.run tr).nextReq, q)] ∧
        ∀ p ∈ AN.outstanding (AN.run tr), p.1 ∈ (AN.getSearchResults q (AN.run tr)).aborted) ∧
    (∀ (s : AN.ANState) (id : Nat) (d : Search.ResultSet), id ∈ s.aborted →
        (AN.step s (.complete id d)).rendered = s.rendered ∧
        (AN.step s (.complete id d)).cachedResults = s.cachedResults ∧
        (AN.step s (.fail id)).rendered = s.rendered) := by
  refine ⟨?_, ?_, ?_, ?_, ?_, ?_⟩
  · intro tr
    exact ps_outstanding_len _ (ps_inv_run tr)
  · intro tr q hm
    exact ps_search_miss _ q (ps_inv_run tr) hm
  · intro s id d hab
    exact ps_abort_swallow s id d hab
  · intro tr
    exact an_outstanding_len _ (an_inv_run tr)
  · intro tr q hm
    exact an_getSearchResults_miss _ q (an_inv_run tr) hm
  · intro s id d hab
    exact an_abort_swallow s id d hab

theorem claim_C1_witness :
    (PS.outstanding (PS.run [.input "ab", .fire])).length ≤ 1 ∧
    (PS.search "xy" (PS.run [])).issued = (PS.run []).issued ++ [((PS.run []).nextReq, "xy")] ∧
    (PS.step { PS.init with aborted := [0] } (.complete 0 Search.dataA)).rendered =
      ({ PS.init with aborted := [0] } : PS.PSState).rendered ∧
    (AN.outstanding (AN.run [.change "ab"])).length ≤ 1 ∧
    (AN.getSearchResults "xy" (AN.run [])).issued =
      (AN.run []).issued ++ [((AN.run []).nextReq, "xy")] ∧
    (AN.step { AN.init with aborted := [0] } (.complete 0 Search.dataA)).rendered =
      ({ AN.init with aborted := [0] } : AN.ANState).rendered :=
  ⟨claim_C1_abort_discipline.1 [.input "ab", .fire],
   (claim_C1_abort_discipline.2.1 [] "xy" (by decide)).1,
   (claim_C1_abort_discipline.2.2.1 { PS.init with aborted := [0] } 0 Search.dataA (by decide)).1,
   claim_C1_abort_discipline.2.2.2.1 [.change "ab"],
   (claim_C1_abort_discipline.2.2.2.2.1 [] "xy" (by decide)).1,
   (claim_C1_abort_discipline.2.2.2.2.2 { AN.init with aborted := [0] } 0 Search.dataA (by decide)).1⟩

/-! ### Quiz top-K selection -/

/-- C4: top-K selection keeps only products with positive score, in
non-increasing score order, truncated to the configured count (and the kept
sorted pool is a permutation of the positive-score pool); on scores
[5, 0, 8, 3] with K = 3 it returns the products ordered by scores [8, 5, 3],
excluding the 0-score product. -/
theorem claim_C4_topk_selection :
    (∀ (products : List Quiz.Product) (answers : Quiz.Answers) (k : Nat),
        (Quiz.getRecommendations products answers k).length ≤ k ∧
        (∀ sp ∈ Quiz.getRecommendations products answers k, 0 < sp.score) ∧
        (Quiz.getRecommendations products answers k).Pairwise Quiz.scoreDesc ∧
        List.Perm
          (((products.map fun p => (⟨p, Quiz.score p answers⟩ : Quiz.ScoredProduct)).filter
              fun sp => decide (0 < sp.score)).insertionSort Quiz.scoreDesc)
          ((products.map fun p => (⟨p, Quiz.score p answers⟩ : Quiz.ScoredProduct)).filter
              fun sp => decide (0 < sp.score))) ∧
    (Quiz.selectTopK [⟨Quiz.sampleProduct "a", 5⟩, ⟨Quiz.sampleProduct "b", 0⟩,
        ⟨Quiz.sampleProduct "c", 8⟩, ⟨Quiz.sampleProduct "d", 3⟩] 3).map
      (fun sp => sp.score) = [8, 5, 3] ∧
    (Quiz.selectTopK [⟨Quiz.sampleProduct "a", 5⟩, ⟨Quiz.sampleProduct "b", 0⟩,
        ⟨Quiz.sampleProduct "c", 8⟩, ⟨Quiz.sampleProduct "d", 3⟩] 3).map
      (fun sp => sp.product.handle) = ["c", "a", "d"] := by
  refine ⟨?_, by decide, by decide⟩
  intro products answers k
  refine ⟨?_, ?_, ?_, List.perm_insertionSort _ _⟩
  · show (List.take k _).length ≤ k
    rw [List.length_take]
    exact min_le_left _ _
  · intro sp hsp
    have h1 : sp ∈ ((products.map fun p => (⟨p, Quiz.score p answers⟩ : Quiz.ScoredProduct)).filter
        fun sp => decide (0 < sp.score)).insertionSort Quiz.scoreDesc :=
      (List.take_sublist _ _).subset hsp
    have h2 := (List.perm_insertionSort Quiz.scoreDesc _).subset h1
    have h3 := (List.mem_filter.mp h2).2
    simpa using h3
  · apply List.Pairwise.sublist (List.take_sublist _ _)
    exact List.sorted_insertionSort Quiz.scoreDesc _

theorem claim_C4_witness :
    (Quiz.getRecommendations [Quiz.sampleProduct "a"] Quiz.sampleAnswers 3).length ≤ 3 ∧
    0 < (⟨Quiz.sampleProduct "a",
          Quiz.score (Quiz.sampleProduct "a") Quiz.sampleAnswers⟩ : Quiz.ScoredProduct).score :=
  ⟨(claim_C4_topk_selection.1 [Quiz.sampleProduct "a"] Quiz.sampleAnswers 3).1,
   (claim_C4_topk_selection.1 [Quiz.sampleProduct "a"] Quiz.sampleAnswers 3).2.1
     ⟨Quiz.sampleProduct "a", Quiz.score (Quiz.sampleProduct "a") Quiz.sampleAnswers⟩
     (List.mem_singleton_self _)⟩

/-! ### Quiz scorer monotonicity -/

theorem quiz_goalPart_setQuizScore (p : Quiz.Product) (a : Quiz.Answers) (g : String) (n : Nat)
    (h : p.metafields.quizScore g = none) :
    Quiz.goalPart p a ≤ Quiz.goalPart (Quiz.setQuizScore p g n) a := by
  unfold Quiz.goalPart Quiz.setQuizScore
  cases a.goal with
  | none => exact le_refl _
  | some g2 =>
    dsimp only
    by_cases hg : g2 = ""
    · simp [hg]
    · simp only [if_neg hg]
      apply Nat.add_le_add _ (le_refl _)
      by_cases hgg : g2 = g
      · subst hgg
        rw [h]
        simp
      · simp only [if_neg hgg]
        exact le_refl _

theorem quiz_score_setQuizScore (p : Quiz.Product) (a : Quiz.Answers) (g : String) (n : Nat)
    (h : p.metafields.quizScore g = none) :
    Quiz.score p a ≤ Quiz.score (Quiz.setQuizScore p g n) a := by
  unfold Quiz.score
  exact Nat.add_le_add
    (Nat.add_le_add
      (Nat.add_le_add
        (Nat.add_le_add (quiz_goalPart_setQuizScore p a g n h) (le_refl _))
        (le_refl _))
      (le_refl _))
    (le_refl _)

theorem quiz_focus_foldl_mono (tags1 tags2 : List String)
    (hsub : ∀ x, x ∈ tags1 → x ∈ tags2) :
    ∀ (fs : List String) (n m : Nat), n ≤ m →
      fs.foldl (fun acc f => acc + (if f ∈ tags1 then 4 else 0)) n ≤
      fs.foldl (fun acc f => acc + (if f ∈ tags2 then 4 else 0)) m := by
  intro fs
  induction fs with
  | nil => intro n m h; exact h
  | cons f fs ih =>
    intro n m h
    have hc : (if f ∈ tags1 then 4 else 0) ≤ (if f ∈ tags2 then 4 else 0) := by
      by_cases hf : f ∈ tags1
      · simp [hf, hsub f hf]
      · simp only [if_neg hf]
        exact Nat.zero_le _
    exact ih _ _ (Nat.add_le_add h hc)

theorem quiz_goalPart_addTag (p : Quiz.Product) (a : Quiz.Answers) (t : String) :
    Quiz.goalPart p a ≤ Quiz.goalPart (Quiz.addTag p t) a := by
  unfold Quiz.goalPart Quiz.addTag
  cases a.goal with
  | none => exact le_refl _
  | some g2 =>
    dsimp only
    by_cases hg : g2 = ""
    · simp [hg]
    · simp only [if_neg hg]
      apply Nat.add_le_add (le_refl _)
      by_cases hm : g2 ∈ p.tags
      · simp [hm, List.mem_append_left _ hm]
      · simp only [if_neg hm]
        exact Nat.zero_le _

theorem quiz_focusPart_addTag (p : Quiz.Product) (a : Quiz.Answers) (t : String) :
    Quiz.focusPart p a ≤ Quiz.focusPart (Quiz.addTag p t) a := by
  unfold Quiz.focusPart Quiz.addTag
  cases a.focus with
  | none => exact le_refl _
  | some fs =>
    exact quiz_focus_foldl_mono p.tags (p.tags ++ [t])
      (fun x hx => List.mem_append_left _ hx) fs 0 0 (le_refl 0)

theorem quiz_score_addTag (p : Quiz.Product) (a : Quiz.Answers) (t : String) :
    Quiz.score p a ≤ Quiz.score (Quiz.addTag p t) a := by
  unfold Quiz.score
  exact Nat.add_le_add
    (Nat.add_le_add
      (Nat.add_le_add
        (Nat.add_le_add (quiz_goalPart_addTag p a t) (le_refl _))
        (le_refl _))
      (quiz_focusPart_addTag p a t))
    (le_refl _)

theorem quiz_expPart_none (p : Quiz.Product) (a : Quiz.Answers)
    (h : p.metafields.experienceLevel = none) :
    Quiz.expPart p a = 0 := by
  unfold Quiz.expPart
  cases a.experience with
  | none => rfl
  | some e =>
    dsimp only
    by_cases he : e = 0
    · simp [he]
    · simp [he, h]

theorem quiz_score_setExperienceLevel (p : Quiz.Product) (a : Quiz.Answers) (lv : String)
    (h : p.metafields.experienceLevel = none) :
    Quiz.score p a ≤ Quiz.score (Quiz.setExperienceLevel p lv) a := by
  unfold Quiz.score
  rw [quiz_expPart_none p a h]
  exact Nat.add_le_add
    (Nat.add_le_add
      (Nat.add_le_add
        (Nat.add_le_add (le_refl _) (Nat.zero_le _))
        (le_refl _))
      (le_refl _))
    (le_refl _)

theorem quiz_spacePart_none (p : Quiz.Product) (a : Quiz.Answers)
    (h : p.metafields.spaceRequired = none) :
    Quiz.spacePart p a = 0 := by
  unfold Quiz.spacePart
  cases a.space with
  | none => rfl
  | some sp =>
    dsimp only
    by_cases hs : sp = ""
    · simp [hs]
    · simp [hs, h]

theorem quiz_score_setSpaceRequired (p : Quiz.Product) (a : Quiz.Answers) (sp : String)
    (h : p.metafields.spaceRequired = none) :
    Quiz.score p a ≤ Quiz.score (Quiz.setSpaceRequired p sp) a := by
  unfold Quiz.score
  rw [quiz_spacePart_none p a h]
  exact Nat.add_le_add
    (Nat.add_le_add
      (Nat.add_le_add
        (Nat.add_le_add (le_refl _) (le_refl _))
        (Nat.zero_le _))
      (le_refl _))
    (le_refl _)

theorem quiz_score_addFocus (p : Quiz.Product) (a : Quiz.Answers) (fs : List String)
    (f : String) (h : a.focus = some fs) :
    Quiz.score p a ≤ Quiz.score p (Quiz.addFocus a f) := by
  unfold Quiz.score
  have hgoal : Quiz.goalPart p (Quiz.addFocus a f) = Quiz.goalPart p a := rfl
  have hexp : Quiz.expPart p (Quiz.addFocus a f) = Quiz.expPart p a := rfl
  have hspace : Quiz.spacePart p (Quiz.addFocus a f) = Quiz.spacePart p a := rfl
  rw [hgoal, hexp, hspace]
  have hfocus : Quiz.focusPart p a ≤ Quiz.focusPart p (Quiz.addFocus a f) := by
    unfold Quiz.focusPart Quiz.addFocus
    rw [h]
    dsimp only [Option.getD_some]
    rw [List.foldl_append]
    dsimp only [List.foldl_cons, List.foldl_nil]
    exact Nat.le_add_right _ _
  exact Nat.add_le_add (Nat.add_le_add (le_refl _) hfocus) (le_refl _)

theorem quiz_score_setAvailable (p : Quiz.Product) (a : Quiz.Answers) :
    Quiz.score p a ≤ Quiz.score (Quiz.setAvailable p true) a := by
  unfold Quiz.score
  have hav : Quiz.availPart p ≤ Quiz.availPart (Quiz.setAvailable p true) := by
    unfold Quiz.availPart Quiz.setAvailable
    by_cases hb : p.available <;> simp [hb]
  exact Nat.add_le_add (le_refl _) hav

/-- C5: for a fixed product and fixed remaining answers the quiz score is
monotonically non-decreasing in each matching rule component: adding a goal
metafield score, a tag (in particular the goal tag), an experience level, a
space requirement, a selected focus area or availability never decreases the
score. -/
theorem claim_C5_score_monotone :
    (∀ (p : Quiz.Product) (a : Quiz.Answers) (g : String) (n : Nat),
        p.metafields.quizScore g = none →
        Quiz.score p a ≤ Quiz.score (Quiz.setQuizScore p g n) a) ∧
    (∀ (p : Quiz.Product) (a : Quiz.Answers) (t : String),
        Quiz.score p a ≤ Quiz.score (Quiz.addTag p t) a) ∧
    (∀ (p : Quiz.Product) (a : Quiz.Answers) (lv : String),
        p.metafields.experienceLevel = none →
        Quiz.score p a ≤ Quiz.score (Quiz.setExperienceLevel p lv) a) ∧
    (∀ (p : Quiz.Product) (a : Quiz.Answers) (sp : String),
        p.metafields.spaceRequired = none →
        Quiz.score p a ≤ Quiz.score (Quiz.setSpaceRequired p sp) a) ∧
    (∀ (p : Quiz.Product) (a : Quiz.Answers) (fs : List String) (f : String),
        a.focus = some fs →
        Quiz.score p a ≤ Quiz.score p (Quiz.addFocus a f)) ∧
    (∀ (p : Quiz.Product) (a : Quiz.Answers),
        Quiz.score p a ≤ Quiz.score (Quiz.setAvailable p true) a) :=
  ⟨quiz_score_setQuizScore, quiz_score_addTag, quiz_score_setExperienceLevel,
   quiz_score_setSpaceRequired, quiz_score_addFocus, quiz_score_setAvailable⟩

theorem claim_C5_witness :
    Quiz.score (Quiz.sampleProduct "a") Quiz.sampleAnswers ≤
      Quiz.score (Quiz.setQuizScore (Quiz.sampleProduct "a") "strength" 7) Quiz.sampleAnswers ∧
    Quiz.score (Quiz.sampleProduct "a") Quiz.sampleAnswers ≤
      Quiz.score (Quiz.addTag (Quiz.sampleProduct "a") "strength") Quiz.sampleAnswers ∧
    Quiz.score (Quiz.sampleProduct "a") Quiz.sampleAnswers ≤
      Quiz.score (Quiz.setExperienceLevel (Quiz.sampleProduct "a") "beginner") Quiz.sampleAnswers ∧
    Quiz.score (Quiz.sampleProduct "a") Quiz.sampleAnswers ≤
      Quiz.score (Quiz.setSpaceRequired (Quiz.sampleProduct "a") "small") Quiz.sampleAnswers ∧
    Quiz.score (Quiz.sampleProduct "a") Quiz.sampleAnswers ≤
      Quiz.score (Quiz.sampleProduct "a") (Quiz.addFocus Quiz.sampleAnswers "cardio") ∧
    Quiz.score (Quiz.sampleProduct "a") Quiz.sampleAnswers ≤
      Quiz.score (Quiz.setAvailable (Quiz.sampleProduct "a") true) Quiz.sampleAnswers :=
  ⟨claim_C5_score_monotone.1 _ _ "strength" 7 rfl,
   claim_C5_score_monotone.2.1 _ _ "strength",
   claim_C5_score_monotone.2.2.1 _ _ "beginner" rfl,
   claim_C5_score_monotone.2.2.2.1 _ _ "small" rfl,
   claim_C5_score_monotone.2.2.2.2.1 _ _ ["mobility"] "cardio" rfl,
   claim_C5_score_monotone.2.2.2.2.2 _ _⟩

/-! ### Quiz match percentage -/

theorem quiz_init_le_foldl_max :
    ∀ (l : List Quiz.ScoredProduct) (n : Nat),
      n ≤ l.foldl (fun m q => max m q.score) n := by
  intro l
  induction l with
  | nil => intro n; exact le_refl n
  | cons a t ih =>
    intro n
    exact le_trans (Nat.le_max_left n a.score) (ih _)

theorem quiz_le_foldl_max :
    ∀ (l : List Quiz.ScoredProduct) (n : Nat) (p : Quiz.ScoredProduct), p ∈ l →
      p.score ≤ l.foldl (fun m q => max m q.score) n := by
  intro l
  induction l with
  | nil => intro n p hp; exact absurd hp (List.not_mem_nil _)
  | cons a t ih =>
    intro n p hp
    rcases List.mem_cons.mp hp with h | h
    · subst h
      exact le_trans (Nat.le_max_right n p.score) (quiz_init_le_foldl_max t _)
    · exact ih _ p h

theorem quiz_le_maxScore (ps : List Quiz.ScoredProduct) (p : Quiz.ScoredProduct)
    (hp : p ∈ ps) : p.score ≤ Quiz.maxScore ps :=
  quiz_le_foldl_max ps 0 p hp

theorem quiz_matchPercent_bounds (s m : Nat) (hs : 0 < s) (hm : s ≤ m) :
    0 ≤ Quiz.matchPercent s m ∧ Quiz.matchPercent s m ≤ 100 := by
  unfold Quiz.matchPercent
  have hm0 : 0 < m := lt_of_lt_of_le hs hm
  have hmq : (0 : ℚ) < (m : ℚ) := by exact_mod_cast hm0
  have hq1 : (0 : ℚ) ≤ (s : ℚ) / (m : ℚ) * 100 := by positivity
  have hq2 : (s : ℚ) / (m : ℚ) * 100 ≤ 100 := by
    have hdiv : (s : ℚ) / (m : ℚ) ≤ 1 := by
      rw [div_le_one hmq]
      exact_mod_cast hm
    have := mul_le_mul_of_nonneg_right hdiv (by norm_num : (0 : ℚ) ≤ 100)
    simpa using this
  constructor
  · rw [round_eq]
    have h0 : ((0 : Int) : ℚ) ≤ (s : ℚ) / (m : ℚ) * 100 + 1 / 2 := by
      push_cast
      linarith
    exact Int.le_floor.mpr h0
  · rw [round_eq]
    have hfl : ⌊(s : ℚ) / (m : ℚ) * 100 + 1 / 2⌋ < 101 := by
      apply Int.floor_lt.mpr
      push_cast
      linarith
    omega

/-- C8: for a non-empty recommendation list with positive scores, every
rendered card displays round(score / maxScore * 100) where maxScore is the
maximum displayed score, and this percentage is an integer in [0, 100]. -/
theorem claim_C8_match_percent :
    ∀ (ps : List Quiz.ScoredProduct), ps ≠ [] → (∀ p ∈ ps, 0 < p.score) →
      Quiz.renderResults ps = Quiz.QuizRender.cards
        (ps.map fun p => ⟨p.product.handle, Quiz.matchPercent p.score (Quiz.maxScore ps)⟩) ∧
      ∀ p ∈ ps,
        Quiz.matchPercent p.score (Quiz.maxScore ps) =
          round (((p.score : ℚ) / ((Quiz.maxScore ps : ℚ))) * 100) ∧
        0 ≤ Quiz.matchPercent p.score (Quiz.maxScore ps) ∧
        Quiz.matchPercent p.score (Quiz.maxScore ps) ≤ 100 := by
  intro ps hne hpos
  constructor
  · cases ps with
    | nil => exact absurd rfl hne
    | cons a t => rfl
  · intro p hp
    exact ⟨rfl,
      quiz_matchPercent_bounds p.score (Quiz.maxScore ps) (hpos p hp)
        (quiz_le_maxScore ps p hp)⟩

theorem claim_C8_witness :
    Quiz.renderResults [⟨Quiz.sampleProduct "a", 2⟩, ⟨Quiz.sampleProduct "b", 1⟩] =
      Quiz.QuizRender.cards
        (([⟨Quiz.sampleProduct "a", 2⟩, ⟨Quiz.sampleProduct "b", 1⟩] :
            List Quiz.ScoredProduct).map
          fun p => ⟨p.product.handle,
            Quiz.matchPercent p.score
              (Quiz.maxScore [⟨Quiz.sampleProduct "a", 2⟩, ⟨Quiz.sampleProduct "b", 1⟩])⟩) ∧
    0 ≤ Quiz.matchPercent 1
        (Quiz.maxScore [⟨Quiz.sampleProduct "a", 2⟩, ⟨Quiz.sampleProduct "b", 1⟩]) ∧
    Quiz.matchPercent 1
        (Quiz.maxScore [⟨Quiz.sampleProduct "a", 2⟩, ⟨Quiz.sampleProduct "b", 1⟩]) ≤ 100 := by
  have hpos : ∀ p ∈ [(⟨Quiz.sampleProduct "a", 2⟩ : Quiz.ScoredProduct),
      ⟨Quiz.sampleProduct "b", 1⟩], 0 < p.score := by
    intro p hp
    rcases List.mem_cons.mp hp with h | h
    · subst h; decide
    · rw [List.mem_singleton.mp h]; decide
  have h := claim_C8_match_percent
    [⟨Quiz.sampleProduct "a", 2⟩, ⟨Quiz.sampleProduct "b", 1⟩]
    (List.cons_ne_nil _ _) hpos
  have hmem : (⟨Quiz.sampleProduct "b", 1⟩ : Quiz.ScoredProduct) ∈
      [(⟨Quiz.sampleProduct "a", 2⟩ : Quiz.ScoredProduct), ⟨Quiz.sampleProduct "b", 1⟩] :=
    List.mem_cons_of_mem _ (List.mem_singleton_self _)
  exact ⟨h.1, (h.2 _ hmem).2.1, (h.2 _ hmem).2.2⟩

/-! ### Quote persistence round-trip -/

theorem quote_decodeItem_encodeItem (it : Quote.QuoteItem) :
    Quote.decodeItem (Quote.encodeItem it) = some it := by
  cases it with
  | mk i pid pt ph pim vid vt vp qty =>
    cases qty with
    | none => rfl
    | some q => rfl

theorem quote_decodeItemList_encode (l : List Quote.QuoteItem) :
    Quote.decodeItemList (l.map Quote.encodeItem) = some l := by
  induction l with
  | nil => rfl
  | cons it t ih =>
    show Quote.decodeItemList (Quote.encodeItem it :: t.map Quote.encodeItem) = some (it :: t)
    simp [Quote.decodeItemList, quote_decodeItem_encodeItem, ih]

theorem quote_loadItems_saveItems (l : List Quote.QuoteItem) :
    Quote.loadItems (Quote.saveItems l) = l := by
  show (Quote.decodeItems (.arr (l.map Quote.encodeItem))).getD [] = l
  simp [Quote.decodeItems, quote_decodeItemList_encode]

theorem quote_addItem_sync (it : Quote.QuoteItem) (s : Quote.QuoteState)
    (h : Quote.loadItems s.stored = s.items) :
    Quote.loadItems (Quote.addItem it s).stored = (Quote.addItem it s).items := by
  unfold Quote.addItem
  cases hf : s.items.find?
      (fun i => i.productId == it.productId && i.variantId == it.variantId) with
  | some x => exact h
  | none => exact quote_loadItems_saveItems _

/-- C6: a sequence of quote items written through addItem (which serializes
the list with saveItems) is reloaded by loadItems as exactly the in-memory
list, order preserved. -/
theorem claim_C6_storage_roundtrip :
    ∀ (newItems : List Quote.QuoteItem) (s0 : Option Quote.JVal),
      Quote.loadItems
        ((newItems.foldl (fun st it => Quote.addItem it st) (Quote.initState s0)).stored) =
      (newItems.foldl (fun st it => Quote.addItem it st) (Quote.initState s0)).items := by
  have hgen : ∀ (l : List Quote.QuoteItem) (s : Quote.QuoteState),
      Quote.loadItems s.stored = s.items →
      Quote.loadItems ((l.foldl (fun st it => Quote.addItem it st) s).stored) =
        (l.foldl (fun st it => Quote.addItem it st) s).items := by
    intro l
    induction l with
    | nil => intro s h; exact h
    | cons it t ih =>
      intro s h
      exact ih _ (quote_addItem_sync it s h)
  intro newItems s0
  exact hgen newItems (Quote.initState s0) rfl

/-! ### Quote item key uniqueness -/

theorem quote_distinct_addItem (it : Quote.QuoteItem) (s : Quote.QuoteState)
    (h : Quote.DistinctKeys s.items) : Quote.DistinctKeys (Quote.addItem it s).items := by
  unfold Quote.addItem
  cases hf : s.items.find?
      (fun i => i.productId == it.productId && i.variantId == it.variantId) with
  | some x => exact h
  | none =>
    have hall := List.find?_eq_none.mp hf
    unfold Quote.DistinctKeys at h ⊢
    apply List.pairwise_append.mpr
    refine ⟨h, List.pairwise_singleton _ _, ?_⟩
    intro a ha b hb
    rw [List.mem_singleton.mp hb]
    intro hcon
    apply hall a ha
    simp [hcon.1, hcon.2]

theorem quote_distinct_removeItem (iid : String) (s : Quote.QuoteState)
    (h : Quote.DistinctKeys s.items) : Quote.DistinctKeys (Quote.removeItem iid s).items := by
  unfold Quote.removeItem
  unfold Quote.DistinctKeys at h ⊢
  exact List.Pairwise.sublist (List.filter_sublist _) h

theorem quote_distinct_convertFold (now : String) :
    ∀ (cart : List Quote.CartItem) (acc : List Quote.QuoteItem),
      Quote.DistinctKeys acc →
      Quote.DistinctKeys (cart.foldl
        (fun acc c =>
          if acc.any (fun i => i.productId == toString c.productId &&
              i.variantId == toString c.variantId)
          then acc
          else acc ++ [Quote.cartItemToQuoteItem now c]) acc) := by
  intro cart
  induction cart with
  | nil => intro acc h; exact h
  | cons c t ih =>
    intro acc h
    show Quote.DistinctKeys (t.foldl _ _)
    apply ih
    dsimp only
    by_cases hany : (acc.any (fun i => i.productId == toString c.productId &&
        i.variantId == toString c.variantId)) = true
    · rw [if_pos hany]
      exact h
    · rw [if_neg hany]
      unfold Quote.DistinctKeys at h ⊢
      apply List.pairwise_append.mpr
      refine ⟨h, List.pairwise_singleton _ _, ?_⟩
      intro a ha b hb
      rw [List.mem_singleton.mp hb]
      intro hcon
      apply hany
      rw [List.any_eq_true]
      refine ⟨a, ha, ?_⟩
      have h1 : a.productId = toString c.productId := hcon.1
      have h2 : a.variantId = toString c.variantId := hcon.2
      simp [h1, h2]

theorem quote_distinct_convertCart (now : String) (cart : List Quote.CartItem)
    (s : Quote.QuoteState) (h : Quote.DistinctKeys s.items) :
    Quote.DistinctKeys (Quote.convertCartToQuote now cart s).items := by
  unfold Quote.convertCartToQuote
  exact quote_distinct_convertFold now cart s.items h

theorem quote_distinct_applyOp (s : Quote.QuoteState) (op : Quote.QuoteOp)
    (h : Quote.DistinctKeys s.items) : Quote.DistinctKeys (Quote.applyOp s op).items := by
  cases op with
  | add it => exact quote_distinct_addItem it s h
  | remove iid => exact quote_distinct_removeItem iid s h
  | convertCart now cart => exact quote_distinct_convertCart now cart s h
  | submitClear => exact List.Pairwise.nil

/-- C10: the quote item list never holds two entries with the same
(productId, variantId) pair: addItem and convertCartToQuote only insert an
item when no existing entry shares that pair, removeItem and the
post-submission clear preserve the property, and hence any sequence of
operations from a state whose stored list satisfies it keeps it. -/
theorem claim_C10_distinct_keys :
    (∀ (it : Quote.QuoteItem) (s : Quote.QuoteState), Quote.DistinctKeys s.items →
        Quote.DistinctKeys (Quote.addItem it s).items) ∧
    (∀ (iid : String) (s : Quote.QuoteState), Quote.DistinctKeys s.items →
        Quote.DistinctKeys (Quote.removeItem iid s).items) ∧
    (∀ (now : String) (cart : List Quote.CartItem) (s : Quote.QuoteState),
        Quote.DistinctKeys s.items →
        Quote.DistinctKeys (Quote.convertCartToQuote now cart s).items) ∧
    (∀ s : Quote.QuoteState, Quote.DistinctKeys (Quote.clearItems s).items) ∧
    (∀ (ops : List Quote.QuoteOp) (s0 : Option Quote.JVal),
        Quote.DistinctKeys (Quote.loadItems s0) →
        Quote.DistinctKeys ((ops.foldl Quote.applyOp (Quote.initState s0)).items)) := by
  refine ⟨quote_distinct_addItem, quote_distinct_removeItem, quote_distinct_convertCart,
    fun s => List.Pairwise.nil, ?_⟩
  have hgen : ∀ (l : List Quote.QuoteOp) (s : Quote.QuoteState),
      Quote.DistinctKeys s.items →
      Quote.DistinctKeys ((l.foldl Quote.applyOp s).items) := by
    intro l
    induction l with
    | nil => intro s h; exact h
    | cons op t ih =>
      intro s h
      exact ih _ (quote_distinct_applyOp s op h)
  intro ops s0 h
  exact hgen ops (Quote.initState s0) h

theorem claim_C10_witness :
    Quote.DistinctKeys
      (([Quote.QuoteOp.add (Quote.sampleItem "1" "p1" "v1"),
         Quote.QuoteOp.add (Quote.sampleItem "2" "p1" "v1"),
         Quote.QuoteOp.remove "9"].foldl Quote.applyOp (Quote.initState none)).items) ∧
    Quote.DistinctKeys
      (Quote.addItem (Quote.sampleItem "1" "p1" "v1") (Quote.initState none)).items :=
  ⟨claim_C10_distinct_keys.2.2.2.2
      [Quote.QuoteOp.add (Quote.sampleItem "1" "p1" "v1"),
       Quote.QuoteOp.add (Quote.sampleItem "2" "p1" "v1"),
       Quote.QuoteOp.remove "9"] none List.Pairwise.nil,
   claim_C10_distinct_keys.1 (Quote.sampleItem "1" "p1" "v1") (Quote.initState none)
      List.Pairwise.nil⟩
